import Mathlib

/-!
Verification development for the lakeFS-style versioning service.

Definitions are shallow embeddings of the Go source:
  - `handleAPIErrorCallback`, `DeleteObjects`, `CreateRepository`,
    `ensureStorageNamespace`, `GetPhysicalAddress`, `LinkPhysicalAddress`,
    `MergeIntoBranch`, `CommitHandler` follow src/pkg/api/controller.go;
  - the `GoPath` namespace follows the path package in src/unnamed/part_001;
  - the versioning engine itself (graveler: merge, commit, CAS retry,
    link-address registry, range/metarange store) is not part of the
    excerpted sources, so those definitions are modelled from the spec,
    as marked in their doc comments.
-/

namespace LakeFS

/-- Error kinds surfaced to the API layer.  Mirrors the graveler / block /
catalog error values matched in controller.go handleAPIErrorCallback. -/
inductive ApiErr where
  | addressTokenNotFound
  | addressTokenExpired
  | notFound
  | protectedBranch
  | dirtyBranch
  | invalidValue
  | pathRequiredValue
  | noChanges
  | invalidRef
  | notUnique
  | conflictFound
  | lockNotAcquired
  | dataNotFound
  | alreadyExists
  | tooManyTries
  | writeToProtectedBranch
  | orderingViolation
  | rangeNotFound
  | requestSizeExceeded
  | storageNamespaceInUse
  | otherErr
  deriving DecidableEq, Repr

/-- HTTP status produced for each error by the switch in
controller.go handleAPIErrorCallback (lines 2070-2135): address-token
errors map to 400, not-found to 404, protected branch to 403, the
bad-request family (dirty branch, invalid value, no changes, invalid ref,
path required) to 400, conflicts to 409, lock-not-acquired to 500,
data-not-found to 410, already-exists to 409, too-many-tries to 423
(Locked), and everything else to 500. -/
def handleAPIErrorCallback : ApiErr → Nat
  | .addressTokenNotFound => 400
  | .addressTokenExpired => 400
  | .notFound => 404
  | .protectedBranch => 403
  | .dirtyBranch => 400
  | .invalidValue => 400
  | .pathRequiredValue => 400
  | .noChanges => 400
  | .invalidRef => 400
  | .notUnique => 409
  | .conflictFound => 409
  | .lockNotAcquired => 500
  | .dataNotFound => 410
  | .alreadyExists => 409
  | .tooManyTries => 423
  | _ => 500

/-- Error message text attached to responses (err.Error() in Go). -/
def errMessage : ApiErr → String
  | .addressTokenNotFound => "address token not found"
  | .addressTokenExpired => "address token expired"
  | .notFound => "not found"
  | .protectedBranch => "protected branch"
  | .dirtyBranch => "dirty branch"
  | .invalidValue => "invalid value"
  | .pathRequiredValue => "missing path"
  | .noChanges => "no changes"
  | .invalidRef => "invalid ref"
  | .notUnique => "not unique"
  | .conflictFound => "conflict found"
  | .lockNotAcquired => "lock not acquired"
  | .dataNotFound => "data not found"
  | .alreadyExists => "already exists"
  | .tooManyTries => "too many tries"
  | .writeToProtectedBranch => "cannot write to protected branch"
  | .orderingViolation => "ordering violation"
  | .rangeNotFound => "range not found"
  | .requestSizeExceeded => "request size exceeded"
  | .storageNamespaceInUse => "storage namespace already in use"
  | .otherErr => "internal error"

/-! ## The Go path package (src/unnamed/part_001) -/

namespace GoPath

def Separator : Char := '/'

/-- A path value; the Go struct holds one string field, embedded here as
its character list. -/
structure Path where
  str : List Char
  deriving DecidableEq, Repr

/-- Loop body of Path.SplitParts: walk the characters keeping a buffer of
the current segment and the `separated` flag; a separator flushes a
non-empty buffer, consecutive separators are skipped; a trailing
non-empty buffer is appended at the end. -/
def splitPartsGo : List Char → List Char → Bool → List String → List String
  | [], buf, _, parts => if buf.length > 0 then parts ++ [String.mk buf] else parts
  | c :: rest, buf, separated, parts =>
    if c != Separator then splitPartsGo rest (buf ++ [c]) false parts
    else if !separated then splitPartsGo rest [] true (parts ++ [String.mk buf])
    else splitPartsGo rest buf separated parts

def Path.SplitParts (p : Path) : List String :=
  splitPartsGo p.str [] true []

/-- Model of Go strings.EqualFold, parametric in the character folding
function (Unicode simple case folding in Go): two strings are equal under
folding when their folded character sequences coincide. -/
def EqualFold (fold : Char → Char) (s t : String) : Bool :=
  s.data.map fold == t.data.map fold

/-- Path.Equals: nil other compares false; otherwise both paths are split
into parts, list lengths must agree and corresponding parts must be
EqualFold-equal. -/
def Path.Equals (fold : Char → Char) (p : Path) (other : Option Path) : Bool :=
  match other with
  | none => false
  | some o =>
    let mine := p.SplitParts
    let theirs := o.SplitParts
    if mine.length != theirs.length then false
    else (List.zip mine theirs).all fun pr => EqualFold fold pr.1 pr.2

end GoPath

/-! ## Repository creation (controller.go CreateRepository) -/

/-- apiutil.Value for string pointers: nil dereferences to the empty
string. -/
def valueStr : Option String → String
  | none => ""
  | some s => s

/-- controller.go lines 1528-1531: the default branch falls back to
"main" when the request field is absent or empty. -/
def resolveDefaultBranch (b : Option String) : String :=
  let d := valueStr b
  if d = "" then "main" else d

/-! ## Batch object deletion (controller.go DeleteObjects, lines 165-237) -/

/-- controller.go line 65. -/
def DefaultMaxDeleteObjects : Nat := 1000

/-- One element of the per-path error list returned by DeleteObjects
(apigen.ObjectError). -/
structure ObjectError where
  path : String
  statusCode : Nat
  message : String
  deriving DecidableEq, Repr

/-- Outcome of a DeleteObjects call: HTTP status, the optional top-level
error kind for an early rejection, the collected per-path errors, and the
list of paths actually submitted to Catalog.DeleteEntries. -/
structure DeleteObjectsResult where
  status : Nat
  errorKind : Option ApiErr
  errs : List ObjectError
  deleteCalls : List String
  deriving DecidableEq, Repr

def unauthorizedText : String := "Unauthorized"

/-- Per-path effective delete error: the mapped per-path error when
present, else the overall DeleteEntries error (Go: err := delErrs[path];
if err == nil then err = delErr). -/
def effectiveDeleteErr (delErr : Option ApiErr) (delErrs : String → Option ApiErr)
    (p : String) : Option ApiErr :=
  match delErrs p with
  | some e => some e
  | none => delErr

/-- Per-path classification in the second loop of DeleteObjects: a
not-found delete and an empty-path delete are logged and skipped, a
protected-branch failure is collected with status 403, any other failure
with status 500; success adds nothing. -/
def deleteObjectErrOf (delErr : Option ApiErr) (delErrs : String → Option ApiErr)
    (p : String) : Option ObjectError :=
  match effectiveDeleteErr delErr delErrs p with
  | some .notFound => none
  | some .writeToProtectedBranch =>
    some ⟨p, 403, errMessage .writeToProtectedBranch⟩
  | some .pathRequiredValue => none
  | some e => some ⟨p, 500, errMessage e⟩
  | none => none

/-- controller.go DeleteObjects: reject the whole request when the path
list exceeds DefaultMaxDeleteObjects (before any authorization or delete).
Otherwise each path goes through c.authorize (authorizeCallback with
writeError, controller.go lines 4748-4776): a denied path makes the
callback write an error response at once — 401 for an authentication or
authorization error, 500 for an auth-service failure or a disallowed
user — and still contributes a 401 entry to the collected list; the first
written status is the response status, so the final StatusOK write only
takes effect when every path was authorized.  The authorized paths are
submitted to DeleteEntries and per-path delete errors are collected.
The authorization oracle returns none for an allowed path and the
callback-written status for a denied one. -/
def DeleteObjects (authorize : String → Option Nat) (delErr : Option ApiErr)
    (delErrs : String → Option ApiErr) (paths : List String) : DeleteObjectsResult :=
  if paths.length > DefaultMaxDeleteObjects then
    { status := 500, errorKind := some .requestSizeExceeded, errs := [], deleteCalls := [] }
  else
    let authErrs := (paths.filter fun p => (authorize p).isSome).map
      fun p => ObjectError.mk p 401 unauthorizedText
    let pathsToDelete := paths.filter fun p => (authorize p).isNone
    let delErrsList := pathsToDelete.filterMap (deleteObjectErrOf delErr delErrs)
    let firstAuthStatus := (paths.filterMap authorize).head?
    { status := firstAuthStatus.getD 200, errorKind := none,
      errs := authErrs ++ delErrsList, deleteCalls := pathsToDelete }

/-! ## Branch CAS retry (modelled) -/

/-- Modelled from the spec: graveler branch-update retry is not among the
excerpted sources.  A commit or merge attempts an atomic compare-and-swap
of the branch head; on `lockNotAcquired` it retries with one attempt less,
and once the bounded budget is exhausted it fails with `tooManyTries`.
Any other outcome of an attempt is returned as is. -/
def retryBranchUpdate {α : Type} (attempt : Nat → Except ApiErr α) :
    Nat → Except ApiErr α
  | 0 => .error .tooManyTries
  | n + 1 =>
    match attempt n with
    | .error .lockNotAcquired => retryBranchUpdate attempt n
    | r => r

/-! ## Block store and repository creation (controller.go lines 1500-1680) -/

/-- block.ObjectPointer restricted to the fields the controller uses. -/
structure ObjectPointer where
  storageNamespace : String
  identifier : String
  deriving DecidableEq, Repr

/-- The physical block store as a key-to-data association list. -/
abbrev BlockStore := List (ObjectPointer × String)

/-- BlockAdapter.Get: the stored data, or ErrDataNotFound. -/
def blockGet (bs : BlockStore) (obj : ObjectPointer) : Except ApiErr String :=
  match bs.find? fun kv => kv.1 == obj with
  | some kv => .ok kv.2
  | none => .error .dataNotFound

/-- BlockAdapter.Put. -/
def blockPut (bs : BlockStore) (obj : ObjectPointer) (data : String) : BlockStore :=
  bs ++ [(obj, data)]

/-- The configuration bits ensureStorageNamespace reads. -/
structure NsConfig where
  blockStoragePfx : String
  ensureReadableRootNamespace : Bool
  deriving DecidableEq, Repr

def dummyObjName : String := "dummy"

def dummyData : String := "this is dummy data - created by lakeFS to check accessibility"

/-- controller.go ensureStorageNamespace (lines 1627-1676): when the
readable-root check is enabled, finding the dummy object at the namespace
root fails with storage-namespace-in-use; finding the dummy object under
the block storage prefix fails likewise; otherwise the dummy object is
written and read back. -/
def ensureStorageNamespace (cfg : NsConfig) (bs : BlockStore)
    (storageNamespace : String) : BlockStore × Option ApiErr :=
  let dummyKey := cfg.blockStoragePfx ++ "/" ++ dummyObjName
  let rootObj : ObjectPointer := ⟨storageNamespace, dummyObjName⟩
  let obj : ObjectPointer := ⟨storageNamespace, dummyKey⟩
  let rootCheck : Option ApiErr :=
    if cfg.ensureReadableRootNamespace then
      match blockGet bs rootObj with
      | .ok _ => some .storageNamespaceInUse
      | .error e => if e = .dataNotFound then none else some e
    else none
  match rootCheck with
  | some e => (bs, some e)
  | none =>
    match blockGet bs obj with
    | .ok _ => (bs, some .storageNamespaceInUse)
    | .error e =>
      if e = .dataNotFound then
        let bs2 := blockPut bs obj dummyData
        match blockGet bs2 obj with
        | .ok _ => (bs2, none)
        | .error e2 => (bs2, some e2)
      else (bs, some e)

/-- A repository record (name, storage namespace, default branch). -/
structure RepoRec where
  name : String
  storageNamespace : String
  defaultBranch : String
  deriving DecidableEq, Repr

/-- The CreateRepository request body fields the controller reads. -/
structure CreateRepoBody where
  name : String
  storageNamespace : String
  defaultBranch : Option String
  bare : Bool
  deriving DecidableEq, Repr

/-- Repository list plus block store. -/
structure SysState where
  repos : List RepoRec
  blocks : BlockStore
  deriving DecidableEq, Repr

/-- controller.go CreateRepository (lines 1490-1615): validate the
namespace, resolve the default branch, create bare repositories directly;
otherwise run ensureStorageNamespace first and answer 400 on any of its
failures without creating the repository; on success create the
repository and answer 201. -/
def CreateRepository (cfg : NsConfig) (nsValid : String → Bool) (st : SysState)
    (body : CreateRepoBody) : SysState × Nat :=
  if !nsValid body.storageNamespace then (st, 400)
  else
    let defaultBranch := resolveDefaultBranch body.defaultBranch
    if body.bare then
      ({ st with repos := st.repos ++ [⟨body.name, body.storageNamespace, defaultBranch⟩] }, 201)
    else
      match ensureStorageNamespace cfg st.blocks body.storageNamespace with
      | (bs2, some _) => ({ st with blocks := bs2 }, 400)
      | (bs2, none) =>
        ({ repos := st.repos ++ [⟨body.name, body.storageNamespace, defaultBranch⟩],
           blocks := bs2 }, 201)

/-! ## Physical-address linking (controller.go lines 272-426, registry modelled) -/

/-- Link-address registry plus the staging entries created by
LinkPhysicalAddress; times are abstract naturals. -/
structure LinkSt where
  linkAddresses : List (String × Nat)
  staged : List (String × String)
  deriving DecidableEq, Repr

/-- Modelled from the spec: graveler SetLinkAddress is not among the
excerpted sources.  It registers the handed-out physical address together
with its linking deadline (now plus the bounded linking window). -/
def SetLinkAddress (window now : Nat) (st : LinkSt) (address : String) : LinkSt :=
  { st with linkAddresses := st.linkAddresses ++ [(address, now + window)] }

/-- Modelled from the spec: graveler VerifyLinkAddress is not among the
excerpted sources.  An unknown address fails with addressTokenNotFound,
an address past its deadline with addressTokenExpired. -/
def VerifyLinkAddress (now : Nat) (st : LinkSt) (address : String) : Option ApiErr :=
  match st.linkAddresses.find? fun kv => kv.1 == address with
  | none => some .addressTokenNotFound
  | some kv => if kv.2 < now then some .addressTokenExpired else none

/-- controller.go GetPhysicalAddress: generate a fresh address, register
it via SetLinkAddress, answer 200 with the address. -/
def GetPhysicalAddress (window now : Nat) (st : LinkSt) (address : String) :
    LinkSt × Nat × String :=
  (SetLinkAddress window now st address, 200, address)

/-- controller.go LinkPhysicalAddress: verify the address registration
first; a verification error is routed through handleAPIErrorCallback and
nothing is staged; otherwise CreateEntry stages the path and the call
answers 200. -/
def LinkPhysicalAddress (now : Nat) (st : LinkSt) (address path : String) :
    LinkSt × Nat :=
  match VerifyLinkAddress now st address with
  | some e => (st, handleAPIErrorCallback e)
  | none => ({ st with staged := st.staged ++ [(path, address)] }, 200)

/-- Modelled from the spec: an uploaded object is eligible for
uncommitted-GC cleanup once its linking deadline passed and no staged
entry references its address. -/
def eligibleForCleanup (now : Nat) (st : LinkSt) (address : String) : Bool :=
  (match st.linkAddresses.find? fun kv => kv.1 == address with
   | some kv => decide (kv.2 < now)
   | none => false) && !(st.staged.any fun e => e.2 == address)

/-! ## Commit graph, staging, merge (engine modelled; handlers from controller.go) -/

/-- A committed tree (metarange content) as an association list from path
to value identity; content addressing is modelled by using the tree itself
as the metarange id, so id equality is tree equality. -/
abbrev Tree := List (String × String)

/-- A commit record: parent ids, tree, message, committer. -/
structure CommitRec where
  parents : List Nat
  tree : Tree
  message : String
  committer : String
  deriving DecidableEq, Repr

/-- A branch: head commit id plus the staged uncommitted changes
(path to new value, or tombstone). -/
structure BranchRec where
  head : Nat
  staging : List (String × Option String)
  deriving DecidableEq, Repr

/-- Commit list (id = position, append-only) plus named branches. -/
structure RepoState where
  commits : List CommitRec
  branches : List (String × BranchRec)
  deriving DecidableEq, Repr

def lookupBranch (st : RepoState) (name : String) : Option BranchRec :=
  (st.branches.find? fun kv => kv.1 == name).map fun kv => kv.2

def setBranch (st : RepoState) (name : String) (b : BranchRec) : RepoState :=
  { st with branches := st.branches.map fun kv => if kv.1 == name then (name, b) else kv }

def lookupTree (t : Tree) (k : String) : Option String :=
  (t.find? fun kv => kv.1 == k).map fun kv => kv.2

def lookupStaging (staging : List (String × Option String)) (k : String) :
    Option (Option String) :=
  (staging.find? fun kv => kv.1 == k).map fun kv => kv.2

/-- Merge strategies: default (conflicts fail), source-wins, dest-wins. -/
inductive MergeStrategy where
  | dflt
  | sourceWins
  | destWins
  deriving DecidableEq, Repr

/-- Modelled from the spec decision table for one key of a three-way
merge: an unchanged side yields the other side; both sides changed to the
same result yield it; otherwise, without a strategy, the key conflicts
(none); a strategy picks its side.  Delete-versus-modify lands in the
conflict branch. -/
def mergeVal (strategy : MergeStrategy) (b s d : Option String) :
    Option (Option String) :=
  if s = b then some d
  else if d = b then some s
  else if s = d then some s
  else match strategy with
    | .sourceWins => some s
    | .destWins => some d
    | .dflt => none

/-- Modelled from the spec: three-way merge over the union of keys of
base, source and destination; if any key conflicts the whole merge fails
with conflictFound, otherwise the merged tree keeps every key whose merged
value is present. -/
def threeWayMerge (strategy : MergeStrategy) (base source dest : Tree) :
    Except ApiErr Tree :=
  let keys := ((base ++ source ++ dest).map Prod.fst).dedup
  if keys.all (fun k =>
      (mergeVal strategy (lookupTree base k) (lookupTree source k) (lookupTree dest k)).isSome) then
    .ok (keys.filterMap fun k =>
      match mergeVal strategy (lookupTree base k) (lookupTree source k) (lookupTree dest k) with
      | some (some v) => some (k, v)
      | _ => none)
  else .error .conflictFound

/-- Modelled from the spec: the merge operation of the engine.  Resolve
the destination branch and both commit snapshots, three-way merge against
the given base tree; on conflict nothing is written; on success a merge
commit is appended and the destination branch head swaps to it. -/
def MergeEngine (st : RepoState) (destBranch : String) (sourceHead : Nat)
    (baseTree : Tree) (msg committer : String) (strategy : MergeStrategy) :
    RepoState × Except ApiErr Nat :=
  match lookupBranch st destBranch with
  | none => (st, .error .notFound)
  | some b =>
    match st.commits.get? b.head, st.commits.get? sourceHead with
    | some destCommit, some sourceCommit =>
      match threeWayMerge strategy baseTree sourceCommit.tree destCommit.tree with
      | .error e => (st, .error e)
      | .ok newTree =>
        let nid := st.commits.length
        ({ commits := st.commits ++ [⟨[b.head, sourceHead], newTree, msg, committer⟩],
           branches := (setBranch st destBranch ⟨nid, []⟩).branches }, .ok nid)
    | _, _ => (st, .error .notFound)

/-- controller.go MergeIntoBranch (lines 3895-3941): run the merge; a
conflictFound error answers 409 Conflict, any other error goes through
handleAPIErrorCallback, success answers 200. -/
def MergeIntoBranch (st : RepoState) (destBranch : String) (sourceHead : Nat)
    (baseTree : Tree) (msg committer : String) (strategy : MergeStrategy) :
    RepoState × Nat :=
  let r := MergeEngine st destBranch sourceHead baseTree msg committer strategy
  match r.2 with
  | .error .conflictFound => (r.1, 409)
  | .error e => (r.1, handleAPIErrorCallback e)
  | .ok _ => (r.1, 200)

/-- Modelled from the spec: apply the staged changes of a branch over its
committed tree — staged values shadow committed ones, tombstones delete,
untouched committed keys persist. -/
def applyStaging (tree : Tree) (staging : List (String × Option String)) : Tree :=
  let keys := ((tree.map Prod.fst) ++ (staging.map Prod.fst)).dedup
  keys.filterMap fun k =>
    match lookupStaging staging k with
    | some (some v) => some (k, v)
    | some none => none
    | none =>
      match lookupTree tree k with
      | some v => some (k, v)
      | none => none

/-- Modelled from the spec: the commit operation of the engine.  Build the
new tree from the parent tree plus staging; a new metarange id equal to
the parent metarange id (tree equality, by content addressing) fails with
noChanges and writes nothing; otherwise the commit is appended and the
branch swaps to it with a fresh empty staging token. -/
def CommitEngine (st : RepoState) (branch msg committer : String) :
    RepoState × Except ApiErr Nat :=
  match lookupBranch st branch with
  | none => (st, .error .notFound)
  | some b =>
    match st.commits.get? b.head with
    | none => (st, .error .notFound)
    | some parent =>
      let newTree := applyStaging parent.tree b.staging
      if newTree = parent.tree then (st, .error .noChanges)
      else
        let nid := st.commits.length
        ({ commits := st.commits ++ [⟨[b.head], newTree, msg, committer⟩],
           branches := (setBranch st branch ⟨nid, []⟩).branches }, .ok nid)

/-- controller.go Commit (lines 2430-2465): run the engine commit; any
error is routed through handleAPIErrorCallback, success answers 201
Created. -/
def CommitHandler (st : RepoState) (branch msg committer : String) :
    RepoState × Nat :=
  let r := CommitEngine st branch msg committer
  match r.2 with
  | .error e => (r.1, handleAPIErrorCallback e)
  | .ok _ => (r.1, 201)

/-! ## Range and metarange store (modelled from the spec; the sstable /
committed package is not among the excerpted sources) -/

/-- A single versioned key inside a range. -/
structure EntryRec where
  key : String
  value : String
  deriving DecidableEq, Repr

/-- Byte-wise character order. -/
def charLt (a b : Char) : Bool := decide (a.val < b.val)

/-- Lexicographic order on character lists. -/
def charsLt : List Char → List Char → Bool
  | [], [] => false
  | [], _ :: _ => true
  | _ :: _, [] => false
  | a :: as, b :: bs =>
    if charLt a b then true
    else if a = b then charsLt as bs else false

/-- Lexicographic key order. -/
def keyLt (s t : String) : Bool := charsLt s.data t.data

def keyLe (s t : String) : Bool := keyLt s t || s == t

/-- Strict ascending key order, the precondition of WriteRange. -/
def ascKeys : List EntryRec → Bool
  | [] => true
  | [_] => true
  | a :: b :: rest => keyLt a.key b.key && ascKeys (b :: rest)

/-- Modelled from the spec: split an entry sequence into physical blobs of
at most sz + 1 entries (the configurable target size). -/
def chunkify (sz : Nat) : List EntryRec → List (List EntryRec)
  | [] => []
  | x :: xs => (x :: xs.take sz) :: chunkify sz (xs.drop sz)
termination_by l => l.length
decreasing_by simp [List.length_drop]; omega

/-- Index of the first stored blob equal to the given one. -/
def findBlobIdx {α : Type} [DecidableEq α] (blob : α) : List α → Option Nat
  | [] => none
  | b :: bs => if b = blob then some 0 else (findBlobIdx blob bs).map (· + 1)

/-- A content-addressed immutable blob store: blobs are append-only and a
blob identical to a stored one reuses the stored id, so identical content
always yields the identical id. -/
structure CAStore (α : Type) where
  blobs : List α
  deriving DecidableEq, Repr

/-- Write a blob: reuse the id of an identical stored blob (re-writing is
a no-op), else append. -/
def storeWrite {α : Type} [DecidableEq α] (st : CAStore α) (blob : α) :
    CAStore α × Nat :=
  match findBlobIdx blob st.blobs with
  | some i => (st, i)
  | none => (⟨st.blobs ++ [blob]⟩, st.blobs.length)

/-- Read a blob by id; unknown ids fail with rangeNotFound. -/
def storeRead {α : Type} [DecidableEq α] (st : CAStore α) (id : Nat) :
    Except ApiErr α :=
  match st.blobs.get? id with
  | some b => .ok b
  | none => .error .rangeNotFound

/-- A range descriptor: blob id, min and max key, entry count. -/
structure RangeDescriptor where
  id : Nat
  minKey : String
  maxKey : String
  count : Nat
  deriving DecidableEq, Repr

abbrev RangeStore := CAStore (List EntryRec)

abbrev MetaRangeStore := CAStore (List RangeDescriptor)

/-- Descriptor of one written blob. -/
def descrOf (id : Nat) (blob : List EntryRec) : RangeDescriptor :=
  { id := id
    minKey := ((blob.head?).map EntryRec.key).getD ""
    maxKey := ((blob.getLast?).map EntryRec.key).getD ""
    count := blob.length }

/-- Write every chunk in order, returning the final store and the
descriptor list. -/
def writeChunks (st : RangeStore) : List (List EntryRec) →
    RangeStore × List RangeDescriptor
  | [] => (st, [])
  | b :: bs =>
    let p := storeWrite st b
    let q := writeChunks p.1 bs
    (q.1, descrOf p.2 b :: q.2)

/-- Modelled from the spec: WriteRange consumes entries already in
ascending key order (else orderingViolation), splits them into physical
blobs at the target size and returns the descriptors. -/
def WriteRange (sz : Nat) (st : RangeStore) (entries : List EntryRec) :
    RangeStore × Except ApiErr (List RangeDescriptor) :=
  if ascKeys entries then
    let p := writeChunks st (chunkify sz entries)
    (p.1, .ok p.2)
  else (st, .error .orderingViolation)

/-- Modelled from the spec: ReadRange produces the stored entries of one
blob in order; unknown ids fail with rangeNotFound. -/
def ReadRange (st : RangeStore) (id : Nat) : Except ApiErr (List EntryRec) :=
  storeRead st id

/-- Read a descriptor list back blob by blob, concatenating in order. -/
def readBack (st : RangeStore) : List RangeDescriptor →
    Except ApiErr (List EntryRec)
  | [] => .ok []
  | d :: ds =>
    match ReadRange st d.id, readBack st ds with
    | .ok b, .ok rest => .ok (b ++ rest)
    | .error e, _ => .error e
    | .ok _, .error e => .error e

/-- Non-overlap and ascending order of the range bounds, the validation
WriteMetaRange performs. -/
def descsOrdered : List RangeDescriptor → Bool
  | [] => true
  | [d] => keyLe d.minKey d.maxKey
  | a :: b :: rest =>
    keyLe a.minKey a.maxKey && keyLt a.maxKey b.minKey && descsOrdered (b :: rest)

/-- Modelled from the spec: WriteMetaRange validates non-overlap and
ascending order of the descriptors, then stores them content-addressed. -/
def WriteMetaRange (st : MetaRangeStore) (descs : List RangeDescriptor) :
    MetaRangeStore × Except ApiErr Nat :=
  if descsOrdered descs then
    let p := storeWrite st descs
    (p.1, .ok p.2)
  else (st, .error .orderingViolation)

/-- Modelled from the spec: ReadMetaRange returns the stored descriptor
sequence of one metarange. -/
def ReadMetaRange (st : MetaRangeStore) (id : Nat) :
    Except ApiErr (List RangeDescriptor) :=
  storeRead st id

/-- Write an entry sequence and immediately read it back through the
returned descriptors. -/
def rangeRoundTrip (sz : Nat) (st : RangeStore) (entries : List EntryRec) :
    Except ApiErr (List EntryRec) :=
  let p := WriteRange sz st entries
  match p.2 with
  | .ok ds => readBack p.1 ds
  | .error e => .error e

/-- Write a descriptor sequence and immediately read it back through the
returned metarange id. -/
def metaRoundTrip (st : MetaRangeStore) (descs : List RangeDescriptor) :
    Except ApiErr (List RangeDescriptor) :=
  let p := WriteMetaRange st descs
  match p.2 with
  | .ok id => ReadMetaRange p.1 id
  | .error e => .error e

/-! ## Theorems -/

/-- Claim C3: under compare-and-swap contention a branch-mutating
operation retries only a bounded number of times and then surfaces a
terminal error: when every attempt fails with lockNotAcquired, any retry
budget ends in tooManyTries (never a silent endless retry), and the
controller maps tooManyTries to HTTP 423 Locked and lockNotAcquired to
HTTP 500. -/
theorem cas_retry_bounded {α : Type} (attempt : Nat → Except ApiErr α)
    (h : ∀ n, attempt n = .error .lockNotAcquired) (fuel : Nat) :
    retryBranchUpdate attempt fuel = .error .tooManyTries ∧
    handleAPIErrorCallback .tooManyTries = 423 ∧
    handleAPIErrorCallback .lockNotAcquired = 500 := by
  refine ⟨?_, rfl, rfl⟩
  induction fuel with
  | zero => rfl
  | succ n ih =>
    simp only [retryBranchUpdate, h n]
    exact ih

theorem cas_retry_bounded_witness :
    retryBranchUpdate (fun _ => (.error .lockNotAcquired : Except ApiErr Unit)) 5
      = .error .tooManyTries ∧
    handleAPIErrorCallback .tooManyTries = 423 ∧
    handleAPIErrorCallback .lockNotAcquired = 500 :=
  cas_retry_bounded (fun _ => .error .lockNotAcquired) (fun _ => rfl) 5

/-- Claim C9: a CreateRepository request whose DefaultBranch field is
absent or empty creates the repository with default branch "main", and a
non-empty supplied name is used unchanged: the repository list either
stays put or grows by exactly one record carrying
resolveDefaultBranch of the request field, which is "main" for none and
for the empty string and the identity on non-empty names. -/
theorem create_repository_default_branch (cfg : NsConfig) (nsValid : String → Bool)
    (st : SysState) (body : CreateRepoBody) (b : String) (hb : b ≠ "") :
    ((CreateRepository cfg nsValid st body).1.repos = st.repos ∨
      (CreateRepository cfg nsValid st body).1.repos
        = st.repos ++ [⟨body.name, body.storageNamespace,
            resolveDefaultBranch body.defaultBranch⟩]) ∧
    resolveDefaultBranch none = "main" ∧
    resolveDefaultBranch (some "") = "main" ∧
    resolveDefaultBranch (some b) = b := by
  refine ⟨?_, rfl, rfl, ?_⟩
  · unfold CreateRepository
    split
    · left; rfl
    · split
      · right; rfl
      · split
        · left; rfl
        · right; rfl
  · simp [resolveDefaultBranch, valueStr, hb]

theorem create_repository_default_branch_witness :
    ((CreateRepository ⟨"_lakefs", true⟩ (fun _ => true)
        ⟨[], []⟩ ⟨"repo", "s3://bucket", none, false⟩).1.repos = ([] : List RepoRec) ∨
      (CreateRepository ⟨"_lakefs", true⟩ (fun _ => true)
        ⟨[], []⟩ ⟨"repo", "s3://bucket", none, false⟩).1.repos
        = [] ++ [⟨"repo", "s3://bucket", resolveDefaultBranch none⟩]) ∧
    resolveDefaultBranch none = "main" ∧
    resolveDefaultBranch (some "") = "main" ∧
    resolveDefaultBranch (some "dev") = "dev" :=
  create_repository_default_branch ⟨"_lakefs", true⟩ (fun _ => true) ⟨[], []⟩
    ⟨"repo", "s3://bucket", none, false⟩ "dev" (by decide)

/-- Claim C10: Path.Equals compares paths segment-wise after separator
normalization: whenever the SplitParts sequences of two paths have the
same length and corresponding segments are EqualFold-equal (for any
character folding, in particular Unicode simple case folding), Equals
answers true — hence paths differing only in letter case, repeated
separators or leading and trailing separators compare equal. -/
theorem path_equals_fold_segments (fold : Char → Char) (p q : GoPath.Path)
    (hlen : p.SplitParts.length = q.SplitParts.length)
    (hseg : ∀ pr ∈ List.zip p.SplitParts q.SplitParts,
      GoPath.EqualFold fold pr.1 pr.2 = true) :
    GoPath.Path.Equals fold p (some q) = true := by
  unfold GoPath.Path.Equals
  simp only [hlen, bne_self_eq_false, Bool.false_eq_true, if_false, List.all_eq_true]
  intro pr hpr
  exact hseg pr hpr

theorem path_equals_fold_segments_witness :
    GoPath.Path.Equals Char.toLower ⟨"a//B/".data⟩ (some ⟨"/A/b".data⟩) = true :=
  path_equals_fold_segments Char.toLower ⟨"a//B/".data⟩ ⟨"/A/b".data⟩
    (by decide) (by decide)

/-- Claim C8: a DeleteObjects request with more than
DefaultMaxDeleteObjects (1000) paths is rejected up front with the
request-size-exceeded error: the result is the early rejection (no
per-path errors, no path submitted for deletion) and is identical for
every authorizer and every delete outcome, so neither authorization nor
deletion is ever consulted. -/
theorem delete_objects_size_limit (a1 a2 : String → Option Nat) (d1 d2 : Option ApiErr)
    (ds1 ds2 : String → Option ApiErr) (paths : List String)
    (hlim : paths.length > DefaultMaxDeleteObjects) :
    DeleteObjects a1 d1 ds1 paths =
      { status := 500, errorKind := some .requestSizeExceeded,
        errs := [], deleteCalls := [] } ∧
    DeleteObjects a1 d1 ds1 paths = DeleteObjects a2 d2 ds2 paths := by
  constructor <;> simp [DeleteObjects, hlim]

theorem delete_objects_size_limit_witness :
    DeleteObjects (fun _ => none) none (fun _ => none) (List.replicate 1001 "p") =
      { status := 500, errorKind := some .requestSizeExceeded,
        errs := [], deleteCalls := [] } ∧
    DeleteObjects (fun _ => none) none (fun _ => none) (List.replicate 1001 "p")
      = DeleteObjects (fun _ => some 401) (some .notFound) (fun _ => some .notFound)
          (List.replicate 1001 "p") :=
  delete_objects_size_limit (fun _ => none) (fun _ => some 401) none (some .notFound)
    (fun _ => none) (fun _ => some .notFound) (List.replicate 1001 "p")
    (by rw [List.length_replicate]; decide)

/-- Claim C2: a commit whose staged changes produce a metarange equal to
the parent commit metarange (content addressing: equal tree, equal id)
fails in the engine with noChanges, the controller answers HTTP 400, and
no new commit is created — the state is returned untouched. -/
theorem commit_no_changes (st : RepoState) (branch msg committer : String)
    (b : BranchRec) (parent : CommitRec)
    (hb : lookupBranch st branch = some b)
    (hp : st.commits.get? b.head = some parent)
    (hsame : applyStaging parent.tree b.staging = parent.tree) :
    CommitEngine st branch msg committer = (st, .error .noChanges) ∧
    CommitHandler st branch msg committer = (st, 400) ∧
    (CommitHandler st branch msg committer).1.commits = st.commits := by
  have he : CommitEngine st branch msg committer = (st, .error .noChanges) := by
    simp only [CommitEngine, hb, hp, hsame, if_true]
  have hh : CommitHandler st branch msg committer = (st, 400) := by
    unfold CommitHandler
    rw [he]
    rfl
  exact ⟨he, hh, by rw [hh]⟩

theorem commit_no_changes_witness :
    CommitEngine ⟨[⟨[], [("a", "1")], "", ""⟩], [("main", ⟨0, []⟩)]⟩ "main" "m" "c"
      = (⟨[⟨[], [("a", "1")], "", ""⟩], [("main", ⟨0, []⟩)]⟩, .error .noChanges) ∧
    CommitHandler ⟨[⟨[], [("a", "1")], "", ""⟩], [("main", ⟨0, []⟩)]⟩ "main" "m" "c"
      = (⟨[⟨[], [("a", "1")], "", ""⟩], [("main", ⟨0, []⟩)]⟩, 400) ∧
    (CommitHandler ⟨[⟨[], [("a", "1")], "", ""⟩], [("main", ⟨0, []⟩)]⟩ "main" "m" "c").1.commits
      = [⟨[], [("a", "1")], "", ""⟩] :=
  commit_no_changes ⟨[⟨[], [("a", "1")], "", ""⟩], [("main", ⟨0, []⟩)]⟩ "main" "m" "c"
    ⟨0, []⟩ ⟨[], [("a", "1")], "", ""⟩ (by decide) (by decide) (by decide)

/-- Claim C1: a merge whose conflicts remain unresolved by the chosen
strategy fails all-or-nothing: the controller answers HTTP 409 Conflict,
the commit list is unchanged (no merge commit), and the destination
branch still resolves to its pre-merge record. -/
theorem merge_conflict_all_or_nothing (st : RepoState) (destBranch : String)
    (sourceHead : Nat) (baseTree : Tree) (msg committer : String)
    (strategy : MergeStrategy) (b : BranchRec) (dc sc : CommitRec)
    (hb : lookupBranch st destBranch = some b)
    (hd : st.commits.get? b.head = some dc)
    (hs : st.commits.get? sourceHead = some sc)
    (hconf : threeWayMerge strategy baseTree sc.tree dc.tree = .error .conflictFound) :
    MergeIntoBranch st destBranch sourceHead baseTree msg committer strategy = (st, 409) ∧
    (MergeIntoBranch st destBranch sourceHead baseTree msg committer strategy).1.commits
      = st.commits ∧
    lookupBranch
      (MergeIntoBranch st destBranch sourceHead baseTree msg committer strategy).1
      destBranch = some b := by
  have he : MergeEngine st destBranch sourceHead baseTree msg committer strategy
      = (st, .error .conflictFound) := by
    simp only [MergeEngine, hb, hd, hs, hconf]
  have hh : MergeIntoBranch st destBranch sourceHead baseTree msg committer strategy
      = (st, 409) := by
    unfold MergeIntoBranch
    rw [he]
  exact ⟨hh, by rw [hh], by rw [hh]; exact hb⟩

theorem merge_conflict_all_or_nothing_witness :
    MergeIntoBranch
      ⟨[⟨[], [("x", "1")], "", ""⟩, ⟨[0], [("x", "2")], "", ""⟩,
        ⟨[0], [("x", "3")], "", ""⟩], [("main", ⟨2, []⟩)]⟩
      "main" 1 [("x", "1")] "m" "c" .dflt
      = (⟨[⟨[], [("x", "1")], "", ""⟩, ⟨[0], [("x", "2")], "", ""⟩,
          ⟨[0], [("x", "3")], "", ""⟩], [("main", ⟨2, []⟩)]⟩, 409) ∧
    (MergeIntoBranch
      ⟨[⟨[], [("x", "1")], "", ""⟩, ⟨[0], [("x", "2")], "", ""⟩,
        ⟨[0], [("x", "3")], "", ""⟩], [("main", ⟨2, []⟩)]⟩
      "main" 1 [("x", "1")] "m" "c" .dflt).1.commits
      = [⟨[], [("x", "1")], "", ""⟩, ⟨[0], [("x", "2")], "", ""⟩,
         ⟨[0], [("x", "3")], "", ""⟩] ∧
    lookupBranch
      (MergeIntoBranch
        ⟨[⟨[], [("x", "1")], "", ""⟩, ⟨[0], [("x", "2")], "", ""⟩,
          ⟨[0], [("x", "3")], "", ""⟩], [("main", ⟨2, []⟩)]⟩
        "main" 1 [("x", "1")] "m" "c" .dflt).1 "main" = some ⟨2, []⟩ :=
  merge_conflict_all_or_nothing
    ⟨[⟨[], [("x", "1")], "", ""⟩, ⟨[0], [("x", "2")], "", ""⟩,
      ⟨[0], [("x", "3")], "", ""⟩], [("main", ⟨2, []⟩)]⟩
    "main" 1 [("x", "1")] "m" "c" .dflt ⟨2, []⟩ ⟨[0], [("x", "3")], "", ""⟩
    ⟨[0], [("x", "2")], "", ""⟩ (by decide) (by decide) (by decide) (by rfl)

/-- The modelled block store Get either returns data or fails with
dataNotFound. -/
theorem blockGet_ok_or_notFound (bs : BlockStore) (obj : ObjectPointer) :
    (∃ v, blockGet bs obj = .ok v) ∨ blockGet bs obj = .error .dataNotFound := by
  unfold blockGet
  cases hf : List.find? (fun kv => kv.1 == obj) bs with
  | none => exact .inr rfl
  | some kv => exact .inl ⟨kv.2, rfl⟩

/-- ensureStorageNamespace fails with storageNamespaceInUse, leaving the
block store untouched, whenever the dummy object is present at the
namespace root (with the readable-root check enabled) or under the block
storage prefix. -/
theorem ensure_in_use (cfg : NsConfig) (bs : BlockStore) (ns : String)
    (hinuse :
      (cfg.ensureReadableRootNamespace = true ∧
        ∃ data, blockGet bs ⟨ns, dummyObjName⟩ = .ok data) ∨
      ∃ data, blockGet bs ⟨ns, cfg.blockStoragePfx ++ "/" ++ dummyObjName⟩ = .ok data) :
    ensureStorageNamespace cfg bs ns = (bs, some .storageNamespaceInUse) := by
  unfold ensureStorageNamespace
  rcases hinuse with ⟨hroot, data, hget⟩ | ⟨data, hget⟩
  · simp [hroot, hget]
  · rcases blockGet_ok_or_notFound bs ⟨ns, dummyObjName⟩ with ⟨v, hr⟩ | hr
    · by_cases hflag : cfg.ensureReadableRootNamespace
      · simp [hflag, hr]
      · simp [hflag, hget]
    · by_cases hflag : cfg.ensureReadableRootNamespace
      · simp [hflag, hr, hget]
      · simp [hflag, hget]

/-- Claim C5: a non-bare CreateRepository request against a storage
namespace that already contains the lakeFS dummy object — at the root when
the readable-root check is enabled, or under the block storage prefix —
fails the namespace-in-use check, the controller answers HTTP 400, and no
repository is created (the state is returned untouched). -/
theorem create_repository_namespace_in_use (cfg : NsConfig) (nsValid : String → Bool)
    (st : SysState) (body : CreateRepoBody)
    (hvalid : nsValid body.storageNamespace = true)
    (hbare : body.bare = false)
    (hinuse :
      (cfg.ensureReadableRootNamespace = true ∧
        ∃ data, blockGet st.blocks ⟨body.storageNamespace, dummyObjName⟩ = .ok data) ∨
      ∃ data, blockGet st.blocks
        ⟨body.storageNamespace, cfg.blockStoragePfx ++ "/" ++ dummyObjName⟩ = .ok data) :
    ensureStorageNamespace cfg st.blocks body.storageNamespace
      = (st.blocks, some .storageNamespaceInUse) ∧
    CreateRepository cfg nsValid st body = (st, 400) := by
  have he := ensure_in_use cfg st.blocks body.storageNamespace hinuse
  refine ⟨he, ?_⟩
  unfold CreateRepository
  rw [hvalid, hbare, he]
  rfl

theorem create_repository_namespace_in_use_witness :
    ensureStorageNamespace ⟨"_lakefs", true⟩
      [(⟨"s3://b", "dummy"⟩, "d")] "s3://b"
      = ([(⟨"s3://b", "dummy"⟩, "d")], some .storageNamespaceInUse) ∧
    CreateRepository ⟨"_lakefs", true⟩ (fun _ => true)
      ⟨[], [(⟨"s3://b", "dummy"⟩, "d")]⟩ ⟨"r", "s3://b", none, false⟩
      = (⟨[], [(⟨"s3://b", "dummy"⟩, "d")]⟩, 400) :=
  create_repository_namespace_in_use ⟨"_lakefs", true⟩ (fun _ => true)
    ⟨[], [(⟨"s3://b", "dummy"⟩, "d")]⟩ ⟨"r", "s3://b", none, false⟩
    rfl rfl (.inl ⟨rfl, "d", rfl⟩)

/-- Appending a binding for a key absent from a registry makes find?
return exactly that binding. -/
theorem find_key_append_fresh (l : List (String × Nat)) (a : String) (v : Nat)
    (h : ∀ kv ∈ l, kv.1 ≠ a) :
    (l ++ [(a, v)]).find? (fun kv => kv.1 == a) = some (a, v) := by
  induction l with
  | nil => simp
  | cons x xs ih =>
    have hx : (x.1 == a) = false := by
      have := h x (by simp)
      simp [this]
    simp only [List.cons_append, List.find?_cons, hx]
    exact ih fun kv hkv => h kv (by simp [hkv])

/-- VerifyLinkAddress only ever fails with the two address-token
errors. -/
theorem verify_err_cases (now : Nat) (st : LinkSt) (address : String) (e : ApiErr)
    (h : VerifyLinkAddress now st address = some e) :
    e = .addressTokenNotFound ∨ e = .addressTokenExpired := by
  unfold VerifyLinkAddress at h
  split at h
  · exact .inl (Option.some.inj h).symm
  · split at h
    · exact .inr (Option.some.inj h).symm
    · cases h

/-- Claim C6: every physical address handed out by GetPhysicalAddress is
registered as a link address with a deadline; a LinkPhysicalAddress
request whose address fails verification (unknown or expired token)
answers HTTP 400 and stages nothing; and a handed-out address that is
never linked becomes eligible for cleanup once its deadline passed. -/
theorem link_address_lifecycle (window now t2 : Nat) (st : LinkSt) (address : String)
    (n : Nat) (st2 : LinkSt) (addr2 path : String) (e : ApiErr)
    (hfresh : ∀ kv ∈ st.linkAddresses, kv.1 ≠ address)
    (hstfresh : ∀ ev ∈ st.staged, ev.2 ≠ address)
    (hexp : now + window < t2)
    (hverify : VerifyLinkAddress n st2 addr2 = some e) :
    ((address, now + window) ∈ (GetPhysicalAddress window now st address).1.linkAddresses) ∧
    LinkPhysicalAddress n st2 addr2 path = (st2, 400) ∧
    eligibleForCleanup t2 (GetPhysicalAddress window now st address).1 address = true := by
  refine ⟨?_, ?_, ?_⟩
  · simp [GetPhysicalAddress, SetLinkAddress]
  · unfold LinkPhysicalAddress
    rw [hverify]
    rcases verify_err_cases n st2 addr2 e hverify with rfl | rfl <;> rfl
  · unfold eligibleForCleanup GetPhysicalAddress SetLinkAddress
    rw [find_key_append_fresh st.linkAddresses address (now + window) hfresh]
    simp only [Bool.and_eq_true, decide_eq_true_eq, Bool.not_eq_true']
    refine ⟨hexp, ?_⟩
    rw [List.any_eq_false]
    intro ev hev
    simp [hstfresh ev hev]

theorem link_address_lifecycle_witness :
    ((("addr" : String), 0 + 60) ∈
      (GetPhysicalAddress 60 0 ⟨[], []⟩ "addr").1.linkAddresses) ∧
    LinkPhysicalAddress 5 ⟨[], []⟩ "a" "p" = (⟨[], []⟩, 400) ∧
    eligibleForCleanup 100 (GetPhysicalAddress 60 0 ⟨[], []⟩ "addr").1 "addr" = true :=
  link_address_lifecycle 60 0 100 ⟨[], []⟩ "addr" 5 ⟨[], []⟩ "a" "p"
    .addressTokenNotFound (by simp) (by simp) (by decide) (by rfl)

/-- A collected per-path delete error carries the path it was computed
for. -/
theorem deleteObjectErrOf_path (delErr : Option ApiErr) (delErrs : String → Option ApiErr)
    (p : String) (eo : ObjectError) (h : deleteObjectErrOf delErr delErrs p = some eo) :
    eo.path = p := by
  unfold deleteObjectErrOf at h
  split at h
  · cases h
  · cases Option.some.inj h; rfl
  · cases h
  · cases Option.some.inj h; rfl
  · cases h

/-- Claim C4: within the size limit a failure to delete one path never
aborts the batch: with every path authorized (so no earlier error write
preempts the final status), the call answers HTTP 200, a path whose
delete fails contributes its own error entry — with its own status code
and message, by deleteObjectErrOf — collected alongside the successes,
and a path that deletes fine contributes no entry at all. -/
theorem delete_objects_partial_failures (authorize : String → Option Nat)
    (delErr : Option ApiErr) (delErrs : String → Option ApiErr)
    (paths : List String) (q r : String) (eo : ObjectError)
    (hlim : paths.length ≤ DefaultMaxDeleteObjects)
    (hauth : ∀ p ∈ paths, authorize p = none)
    (hq : q ∈ paths) (hr : r ∈ paths)
    (heq : deleteObjectErrOf delErr delErrs q = some eo)
    (her : deleteObjectErrOf delErr delErrs r = none) :
    (DeleteObjects authorize delErr delErrs paths).status = 200 ∧
    eo ∈ (DeleteObjects authorize delErr delErrs paths).errs ∧
    ((DeleteObjects authorize delErr delErrs paths).errs.all fun e2 => e2.path != r) = true := by
  have hnlim : ¬ paths.length > DefaultMaxDeleteObjects := Nat.not_lt.mpr hlim
  have hfm : paths.filterMap authorize = [] := List.filterMap_eq_nil_iff.mpr hauth
  have hfs : (paths.filter fun p => (authorize p).isSome) = [] := by
    rw [List.filter_eq_nil_iff]
    intro a ha
    simp [hauth a ha]
  unfold DeleteObjects
  rw [if_neg hnlim]
  refine ⟨?_, ?_, ?_⟩
  · simp [hfm]
  · simp only [hfs, List.map_nil, List.nil_append]
    exact List.mem_filterMap.mpr ⟨q, List.mem_filter.mpr ⟨hq, by simp [hauth q hq]⟩, heq⟩
  · simp only [hfs, List.map_nil, List.nil_append]
    rw [List.all_eq_true]
    intro e2 he2
    rcases List.mem_filterMap.mp he2 with ⟨x, hx, hxo⟩
    have hpath := deleteObjectErrOf_path delErr delErrs x e2 hxo
    simp only [bne_iff_ne, ne_eq, hpath]
    intro hcontra
    rw [hcontra, her] at hxo
    cases hxo

theorem delete_objects_partial_failures_witness :
    (DeleteObjects (fun _ => none) none
      (fun s => if s == "b" then some .otherErr else none) ["b", "c"]).status = 200 ∧
    ObjectError.mk "b" 500 (errMessage .otherErr) ∈
      (DeleteObjects (fun _ => none) none
        (fun s => if s == "b" then some .otherErr else none) ["b", "c"]).errs ∧
    ((DeleteObjects (fun _ => none) none
        (fun s => if s == "b" then some .otherErr else none)
        ["b", "c"]).errs.all fun e2 => e2.path != "c") = true :=
  delete_objects_partial_failures (fun _ => none) none
    (fun s => if s == "b" then some .otherErr else none) ["b", "c"]
    "b" "c" (ObjectError.mk "b" 500 (errMessage .otherErr))
    (by decide) (by decide) (by decide) (by decide)
    (by decide) (by decide)

/-- findBlobIdx finds an index that really holds the blob. -/
theorem findBlobIdx_get {α : Type} [DecidableEq α] (blob : α) (l : List α) (i : Nat)
    (h : findBlobIdx blob l = some i) : l[i]? = some blob := by
  induction l generalizing i with
  | nil => cases h
  | cons b bs ih =>
    by_cases hb : b = blob
    · rw [findBlobIdx, if_pos hb] at h
      cases Option.some.inj h
      simp [hb]
    · rw [findBlobIdx, if_neg hb] at h
      rcases Option.map_eq_some'.mp h with ⟨j, hj, rfl⟩
      simpa using ih j hj

/-- Reading back the id a storeWrite returned yields the written blob. -/
theorem storeRead_storeWrite_self {α : Type} [DecidableEq α] (st : CAStore α) (b : α) :
    storeRead (storeWrite st b).1 (storeWrite st b).2 = .ok b := by
  unfold storeWrite
  cases hf : findBlobIdx b st.blobs with
  | some i => simp [storeRead, findBlobIdx_get b st.blobs i hf]
  | none => simp [storeRead, List.getElem?_concat_length]

/-- storeWrite never disturbs an existing blob: reads are stable. -/
theorem storeRead_mono {α : Type} [DecidableEq α] (st : CAStore α) (b2 : α)
    (id : Nat) (b : α) (h : storeRead st id = .ok b) :
    storeRead (storeWrite st b2).1 id = .ok b := by
  unfold storeRead at h
  cases hg : st.blobs[id]? with
  | none => rw [List.get?_eq_getElem?, hg] at h; cases h
  | some x =>
    rw [List.get?_eq_getElem?, hg] at h
    cases Except.ok.inj h
    have hlt : id < st.blobs.length := by
      by_contra hge
      rw [List.getElem?_eq_none (Nat.le_of_not_lt hge)] at hg
      cases hg
    unfold storeWrite
    cases findBlobIdx b2 st.blobs with
    | some i => simp [storeRead, hg]
    | none => simp [storeRead, List.getElem?_append_left hlt, hg]

/-- writeChunks never disturbs an existing blob either. -/
theorem storeRead_writeChunks_mono (st : RangeStore) (bs : List (List EntryRec))
    (id : Nat) (b : List EntryRec) (h : storeRead st id = .ok b) :
    storeRead (writeChunks st bs).1 id = .ok b := by
  induction bs generalizing st with
  | nil => exact h
  | cons c cs ih =>
    simp only [writeChunks]
    exact ih (storeWrite st c).1 (storeRead_mono st c id b h)

/-- Reading back all descriptors writeChunks produced concatenates to the
written chunks. -/
theorem writeChunks_readBack (st : RangeStore) (bs : List (List EntryRec)) :
    readBack (writeChunks st bs).1 (writeChunks st bs).2 = .ok bs.join := by
  induction bs generalizing st with
  | nil => simp [writeChunks, readBack]
  | cons c cs ih =>
    have h1 := storeRead_storeWrite_self st c
    have h2 := storeRead_writeChunks_mono (storeWrite st c).1 cs
      (storeWrite st c).2 c h1
    have h3 := ih (storeWrite st c).1
    simp only [writeChunks, readBack, ReadRange, descrOf]
    rw [h2, h3]
    rfl

/-- Splitting into chunks loses and reorders nothing. -/
theorem chunkify_join (sz : Nat) (l : List EntryRec) : (chunkify sz l).join = l := by
  match l with
  | [] => simp [chunkify]
  | x :: xs =>
    have ih := chunkify_join sz (xs.drop sz)
    simp [chunkify, ih]
termination_by l.length
decreasing_by simp [List.length_drop]; omega

/-- Claim C7: the write/read round-trip.  An entry sequence in ascending
key order written through WriteRange reads back, blob by blob through the
returned descriptors, to exactly the same sequence in the same order; and
an ordered, non-overlapping descriptor sequence written through
WriteMetaRange reads back identically through ReadMetaRange. -/
theorem range_write_read_round_trip (sz : Nat) (st : RangeStore)
    (entries : List EntryRec) (mst : MetaRangeStore) (descs : List RangeDescriptor)
    (h1 : ascKeys entries = true) (h2 : descsOrdered descs = true) :
    rangeRoundTrip sz st entries = .ok entries ∧
    metaRoundTrip mst descs = .ok descs := by
  constructor
  · unfold rangeRoundTrip WriteRange
    rw [if_pos h1]
    have := writeChunks_readBack st (chunkify sz entries)
    rw [chunkify_join] at this
    exact this
  · unfold metaRoundTrip WriteMetaRange
    rw [if_pos h2]
    exact storeRead_storeWrite_self mst descs

theorem range_write_read_round_trip_witness :
    rangeRoundTrip 1 ⟨[]⟩ [⟨"a", "1"⟩, ⟨"b", "2"⟩, ⟨"c", "3"⟩]
      = .ok [⟨"a", "1"⟩, ⟨"b", "2"⟩, ⟨"c", "3"⟩] ∧
    metaRoundTrip ⟨[]⟩ [⟨0, "a", "a", 1⟩, ⟨1, "b", "c", 2⟩]
      = .ok [⟨0, "a", "a", 1⟩, ⟨1, "b", "c", 2⟩] :=
  range_write_read_round_trip 1 ⟨[]⟩ [⟨"a", "1"⟩, ⟨"b", "2"⟩, ⟨"c", "3"⟩]
    ⟨[]⟩ [⟨0, "a", "a", 1⟩, ⟨1, "b", "c", 2⟩] (by decide) (by decide)

end LakeFS
